import Mathlib

/-! Verification of the chunked document-to-HTML conversion pipeline
(src/js/parser.worker.js and src/js/optimized-parsing.js).

The two source files are embedded shallowly: the external binary-format
collaborators (XLSX.read, XLSX.utils.sheet_to_html, PptxParser.parse) are
parameters returning `Except String _`, matching the spec, which treats them
as external parsing collaborators that either return a structured document or
throw. Message posting and DOM deliveries become explicit lists of events.
JavaScript `Math.round` on the nonnegative rational p/q is embedded as
exact half-up rounding `(2p + q) / (2q)` in natural numbers. -/

namespace OfficePreview

/-- Apostrophe character, by code point. -/
def apos : Char := Char.ofNat 39

/-- Global single-character replacement on a character list; embeds one
JavaScript `String.prototype.replace(/c/g, r)` step. -/
def replaceChar (c : Char) (r : List Char) : List Char → List Char
  | [] => []
  | x :: xs => (if x = c then r else [x]) ++ replaceChar c r xs

/-- The five chained global replaces of `escapeHtml` in parser.worker.js,
in source order: amp, lt, gt, quot, apostrophe. -/
def escapeHtmlList (s : List Char) : List Char :=
  replaceChar apos "&#039;".data
    (replaceChar '"' "&quot;".data
      (replaceChar '>' "&gt;".data
        (replaceChar '<' "&lt;".data
          (replaceChar '&' "&amp;".data s))))

/-- `escapeHtml` from parser.worker.js: the falsy guard returns the empty
string for empty input, otherwise the chained replaces run. -/
def escapeHtml (s : String) : String :=
  if s = "" then "" else ⟨escapeHtmlList s.data⟩

/-- JavaScript `Math.round (num / den)` for nonnegative operands:
half-up rounding, `(2 num + den) / (2 den)` with truncating division. -/
def jsRound (num den : Nat) : Nat := (2 * num + den) / (2 * den)

/-- Per-worksheet progress value in parseXlsx and parseXlsxInChunks:
`20 + Math.round((i / totalSheets) * 60)`. -/
def sheetProgress (n i : Nat) : Nat := 20 + jsRound (i * 60) n

/-- Structured workbook delivered by the spreadsheet parsing collaborator:
an ordered list of worksheet names (the sheets themselves are consumed
through the `sheetToHtml` collaborator, keyed by name). -/
structure Workbook where
  sheetNames : List String
deriving DecidableEq

/-- One text run of a slide: nesting level and raw content. -/
structure TextRun where
  level : Nat
  content : String
deriving DecidableEq

/-- One slide: `slide.text` may be absent (`none`) or a run list. -/
structure Slide where
  text : Option (List TextRun)
deriving DecidableEq

/-- Structured presentation delivered by the presentation collaborator. -/
structure Presentation where
  slides : List Slide
deriving DecidableEq

/-- A message posted by the worker to the main thread. -/
inductive Msg where
  | progress (percent : Nat)
  | result (kind : String) (html : String)
  | error (message : String)
deriving DecidableEq

/-- Header of the spreadsheet output in parseXlsx / parseXlsxInChunks. -/
def xlsxHeader (n : Nat) : String :=
  "<div class=\"xlsx-content\">" ++ "<h3>Excel文档: " ++ Nat.repr n ++ " 个工作表</h3>"

/-- Per-worksheet block appended in parseXlsx / parseXlsxInChunks (the JS
template literal, whitespace included); the sheet name is interpolated
directly, without escaping. -/
def sheetPiece (i : Nat) (sheetName tableHtml : String) : String :=
  "\n                <div class=\"worksheet-container\">\n                    <h4>工作表 " ++
    Nat.repr (i + 1) ++ ": " ++ sheetName ++
    "</h4>\n                    <div class=\"table-wrapper\">" ++ tableHtml ++
    "</div>\n                </div>\n                <hr>\n            "

/-- The worksheet loop of parseXlsx: for each sheet, a progress message is
posted, then the sheet is converted; a collaborator failure aborts the loop
(the exception escapes past the remaining sheets). Returns the posted
messages and either the accumulated body or the escaped error. -/
def xlsxLoop (sheetToHtml : String → Except String String) (n : Nat) :
    Nat → List String → List Msg × Except String String
  | _, [] => ([], Except.ok "")
  | i, name :: rest =>
    let p := Msg.progress (sheetProgress n i)
    match sheetToHtml name with
    | Except.error e => ([p], Except.error e)
    | Except.ok h =>
      let r := xlsxLoop sheetToHtml n (i + 1) rest
      (p :: r.1, r.2.map (fun tail => sheetPiece i name h ++ tail))

/-- Outcome of running one parse function inside the worker: the messages it
posted before returning or throwing, and the escaped exception message if
one escaped. -/
structure RunOut where
  msgs : List Msg
  thrown : Option String
deriving DecidableEq

/-- parseXlsx from parser.worker.js: progress 10, read the workbook,
progress 20, per-sheet loop, progress 100 and the result message on success;
any failure is rethrown wrapped as an Excel parse failure. -/
def parseXlsxRun (readWb : Except String Workbook)
    (sheetToHtml : String → Except String String) : RunOut :=
  match readWb with
  | Except.error e => ⟨[Msg.progress 10], some ("Excel解析失败: " ++ e)⟩
  | Except.ok wb =>
    let n := wb.sheetNames.length
    let r := xlsxLoop sheetToHtml n 0 wb.sheetNames
    match r.2 with
    | Except.error e =>
      ⟨[Msg.progress 10, Msg.progress 20] ++ r.1, some ("Excel解析失败: " ++ e)⟩
    | Except.ok body =>
      ⟨[Msg.progress 10, Msg.progress 20] ++ r.1 ++
        [Msg.progress 100, Msg.result "xlsx-result" (xlsxHeader n ++ body ++ "</div>")], none⟩

/-- Placeholder rendered for a slide without extractable text. -/
def noContentHtml : String := "<p class=\"no-content\">此幻灯片没有可提取的文本内容</p>"

/-- Tag chosen for a text run in parsePptx: level 0 is a heading, level 1 a
subheading, anything else a paragraph. -/
def slideTag (t : TextRun) : String :=
  if t.level = 0 then "h5" else if t.level = 1 then "h6" else "p"

/-- One rendered text run in parsePptx: the level-chosen tag around the
HTML-escaped content. -/
def slideRunHtml (t : TextRun) : String :=
  "<" ++ slideTag t ++ " class=\"slide-text level-" ++ Nat.repr t.level ++ "\">" ++
    escapeHtml t.content ++ "</" ++ slideTag t ++ ">"

/-- Body of one slide: the content container when `slide.text` is present and
nonempty, otherwise the no-content placeholder. -/
def slideBody (s : Slide) : String :=
  match s.text with
  | some runs =>
    if runs.length > 0 then
      "<div class=\"slide-content\">" ++ String.join (runs.map slideRunHtml) ++ "</div>"
    else noContentHtml
  | none => noContentHtml

/-- One full slide block of parsePptx. -/
def slideHtml (index : Nat) (s : Slide) : String :=
  "<div class=\"slide slide-" ++ Nat.repr (index + 1) ++ "\">" ++
    "<h4>幻灯片 " ++ Nat.repr (index + 1) ++ "</h4>" ++ slideBody s ++ "</div><hr>"

/-- Full presentation HTML of parsePptx. -/
def pptxHtml (p : Presentation) : String :=
  "<div class=\"pptx-content\">" ++ "<h3>PowerPoint文档: " ++ Nat.repr p.slides.length ++
    " 张幻灯片</h3>" ++ String.join (p.slides.enum.map (fun q => slideHtml q.1 q.2)) ++ "</div>"

/-- parsePptx from parser.worker.js: progress 10, byte conversion,
progress 30, collaborator parse, progress 60, HTML assembly, progress 100
and the result message; a collaborator failure is rethrown wrapped. -/
def parsePptxRun (parsePres : Except String Presentation) : RunOut :=
  match parsePres with
  | Except.error e => ⟨[Msg.progress 10, Msg.progress 30], some ("PowerPoint解析失败: " ++ e)⟩
  | Except.ok p =>
    ⟨[Msg.progress 10, Msg.progress 30, Msg.progress 60, Msg.progress 100,
      Msg.result "pptx-result" (pptxHtml p)], none⟩

/-- The `error.message || default` fallback in the onmessage catch block. -/
def errMsgOr (m : String) : String := if m = "" then "解析过程中发生未知错误" else m

/-- self.onmessage from parser.worker.js: dispatch on the request type;
any escaped exception is caught and posted as a single error message. -/
def workerHandle (readWb : Except String Workbook)
    (sheetToHtml : String → Except String String)
    (parsePres : Except String Presentation) (reqType : String) : List Msg :=
  let r :=
    if reqType = "parse-xlsx" then parseXlsxRun readWb sheetToHtml
    else if reqType = "parse-pptx" then parsePptxRun parsePres
    else ⟨[], some ("不支持的解析类型: " ++ reqType)⟩
  match r.thrown with
  | none => r.msgs
  | some w => r.msgs ++ [Msg.error (errMsgOr w)]

/-- A terminal delivery on the main thread: the rendered preview or the
error panel. -/
inductive HostOutcome where
  | rendered (html : String)
  | errorShown (message : String)
deriving DecidableEq

/-- worker.onmessage from optimized-parsing.js: an error field shows the
error panel, a result message renders the content, progress messages only
update the indicator (no terminal delivery). -/
def hostDeliver : Msg → List HostOutcome
  | Msg.progress _ => []
  | Msg.result _ h => [HostOutcome.rendered h]
  | Msg.error m => [HostOutcome.errorShown m]

/-- Terminal deliveries produced on the main thread by one worker request. -/
def workerDeliveries (readWb : Except String Workbook)
    (sheetToHtml : String → Except String String)
    (parsePres : Except String Presentation) (reqType : String) : List HostOutcome :=
  ((workerHandle readWb sheetToHtml parsePres reqType).map hostDeliver).flatten

/-- Message shown by worker.onerror in optimized-parsing.js. -/
def workerCrashMessage (m : String) : String := "解析失败: " ++ m

/-- worker.onerror from optimized-parsing.js: shows the crash message and
terminates the worker (the Boolean records the terminate call). -/
def workerOnError (m : String) : HostOutcome × Bool :=
  (HostOutcome.errorShown (workerCrashMessage m), true)

/-- An observable event of the cooperative main-thread fallback: a progress
callback invocation or a voluntary yield of control (requestIdleCallback). -/
inductive FbEvent where
  | yieldEv
  | progressEv (percent : Nat)
deriving DecidableEq

/-- Worksheet loop of parseXlsxInChunks: per sheet, a progress callback then
one yield to the idle queue, then the sheet conversion. -/
def xlsxChunksLoop (sheetToHtml : String → Except String String) (n : Nat) :
    Nat → List String → List FbEvent × Except String String
  | _, [] => ([], Except.ok "")
  | i, name :: rest =>
    let pre := [FbEvent.progressEv (sheetProgress n i), FbEvent.yieldEv]
    match sheetToHtml name with
    | Except.error e => (pre, Except.error e)
    | Except.ok h =>
      let r := xlsxChunksLoop sheetToHtml n (i + 1) rest
      (pre ++ r.1, r.2.map (fun tail => sheetPiece i name h ++ tail))

/-- parseXlsxInChunks from optimized-parsing.js; a failure is rethrown
unwrapped to the caller. -/
def parseXlsxInChunks (readWb : Except String Workbook)
    (sheetToHtml : String → Except String String) : List FbEvent × Except String String :=
  match readWb with
  | Except.error e => ([FbEvent.progressEv 10], Except.error e)
  | Except.ok wb =>
    let n := wb.sheetNames.length
    let r := xlsxChunksLoop sheetToHtml n 0 wb.sheetNames
    match r.2 with
    | Except.error e => ([FbEvent.progressEv 10, FbEvent.progressEv 20] ++ r.1, Except.error e)
    | Except.ok body =>
      ([FbEvent.progressEv 10, FbEvent.progressEv 20] ++ r.1 ++ [FbEvent.progressEv 100],
       Except.ok (xlsxHeader n ++ body ++ "</div>"))

/-- Modelled from the spec: `parsePptxInChunks` is called by parseLargeFile
in src/js/optimized-parsing.js but is not defined anywhere under src/. Per
the spec, the cooperative presentation fallback emits the fixed progress
checkpoints 10/30/60/100, inserts one voluntary suspension point per slide,
and returns the converted presentation HTML; a structural parse failure
is thrown to the caller. -/
def parsePptxInChunks (parsePres : Except String Presentation) :
    List FbEvent × Except String String :=
  match parsePres with
  | Except.error e => ([FbEvent.progressEv 10, FbEvent.progressEv 30], Except.error e)
  | Except.ok p =>
    ([FbEvent.progressEv 10, FbEvent.progressEv 30, FbEvent.progressEv 60] ++
      p.slides.map (fun _ => FbEvent.yieldEv) ++ [FbEvent.progressEv 100],
     Except.ok (pptxHtml p))

/-- The fallback branch of parseLargeFile (worker unavailable): dispatch on
the document type, render the returned value, or show the caught message;
an unsupported type throws and is caught by the same handler. -/
def parseLargeFileFallback (docType : String) (readWb : Except String Workbook)
    (sheetToHtml : String → Except String String)
    (parsePres : Except String Presentation) : List FbEvent × List HostOutcome :=
  if docType = "xlsx" then
    let r := parseXlsxInChunks readWb sheetToHtml
    (r.1, match r.2 with
          | Except.ok v => [HostOutcome.rendered v]
          | Except.error e => [HostOutcome.errorShown e])
  else if docType = "pptx" then
    let r := parsePptxInChunks parsePres
    (r.1, match r.2 with
          | Except.ok v => [HostOutcome.rendered v]
          | Except.error e => [HostOutcome.errorShown e])
  else ([], [HostOutcome.errorShown ("不支持的文档类型: " ++ docType)])

/-- Number of voluntary yields among fallback events. -/
def countYields (evs : List FbEvent) : Nat :=
  evs.countP (fun e => match e with | FbEvent.yieldEv => true | _ => false)

/-- The visible state written by updateProgressIndicator. -/
structure ProgressDisplay where
  width : String
  text : String
deriving DecidableEq

/-- updateProgressIndicator from optimized-parsing.js: the percent value is
formatted directly into the bar width and the status text. -/
def updateProgressIndicator (percent : Int) : ProgressDisplay :=
  ⟨percent.repr ++ "%", "正在解析: " ++ percent.repr ++ "%"⟩

/-- Written from the words of the spec for comparison: the Progress Reporter
clamps the percentage into [0,100] before formatting. -/
def updateProgressIndicatorSpec (percent : Int) : ProgressDisplay :=
  let c := max 0 (min percent 100)
  ⟨c.repr ++ "%", "正在解析: " ++ c.repr ++ "%"⟩

/-- Buffer constant of enableVirtualScrolling. -/
def vBuffer : Nat := 200

/-- Start index computed by renderVisibleContent:
`Math.max(0, Math.floor((scrollTop - buffer) / 10))` (natural subtraction
truncates at zero exactly as the outer max does). -/
def visStart (scrollTop : Nat) : Nat := (scrollTop - vBuffer) / 10

/-- End index computed by renderVisibleContent:
`Math.ceil((scrollTop + viewportHeight + buffer) / 10)`. -/
def visEnd (viewportHeight scrollTop : Nat) : Nat :=
  (scrollTop + viewportHeight + vBuffer + 9) / 10

/-- Mutable state of the virtual-scrolling render loop: the last rendered
start index (initialized to 0), the indices of the reference-tree children
currently cloned into the scroll container, and the translateY offset. -/
structure VScrollState where
  currentStart : Nat
  renderedIdx : List Nat
  transformY : Nat
deriving DecidableEq

/-- State before the first renderVisibleContent tick. -/
def initialVState : VScrollState := ⟨0, [], 0⟩

/-- One tick of renderVisibleContent from optimized-parsing.js, for a
reference tree with `len` top-level children: recompute the range and
re-render only when the start index changed. -/
def renderVisibleContent (viewportHeight len scrollTop : Nat)
    (st : VScrollState) : VScrollState :=
  let start := visStart scrollTop
  let stop := visEnd viewportHeight scrollTop
  if start = st.currentStart then st
  else
    let startIndex := min start len
    let endIndex := min stop len
    ⟨start, List.range' startIndex (endIndex - startIndex), start * 10⟩

/-- Run the render loop over a sequence of observed scroll offsets. -/
def runScroll (viewportHeight len : Nat) (scrolls : List Nat) : VScrollState :=
  scrolls.foldl (fun st s => renderVisibleContent viewportHeight len s st) initialVState

/-- Does the pattern match at the head of the text. -/
def matchAt : List Char → List Char → Bool
  | [], _ => true
  | _ :: _, [] => false
  | p :: ps, c :: cs => p == c && matchAt ps cs

/-- Does the pattern occur anywhere in the text. -/
def hasSub (p : List Char) : List Char → Bool
  | [] => p.isEmpty
  | c :: cs => matchAt p (c :: cs) || hasSub p cs

/-- Number of positions at which the pattern matches. -/
def countSub (p : List Char) : List Char → Nat
  | [] => 0
  | c :: cs => (if matchAt p (c :: cs) then 1 else 0) + countSub p cs

/-- Drop through the first occurrence of the pattern, returning the text
after the position where it starts. -/
def dropToSub (p : List Char) : List Char → Option (List Char)
  | [] => if p.isEmpty then some [] else none
  | c :: cs => if matchAt p (c :: cs) then some cs else dropToSub p cs

/-- Do the patterns occur in the text in the given order. -/
def inOrder : List (List Char) → List Char → Bool
  | [], _ => true
  | p :: ps, s =>
    match dropToSub p s with
    | none => false
    | some rest => inOrder ps rest

/-- The html of the first result message, if any. -/
def resultHtml? (ms : List Msg) : Option String :=
  (ms.filterMap (fun m => match m with | Msg.result _ h => some h | _ => none)).head?

/-- The progress percentages of a message list, in posting order. -/
def progressVals (ms : List Msg) : List Nat :=
  ms.filterMap (fun m => match m with | Msg.progress p => some p | _ => none)

/-- Is the message a terminal one (result or error). -/
def isTerminal : Msg → Bool
  | Msg.progress _ => false
  | _ => true

/-- Did the request deliver a result message. -/
def succeeded (ms : List Msg) : Bool :=
  ms.any (fun m => match m with | Msg.result _ _ => true | _ => false)

/-- Concrete three-worksheet workbook of the spec scenario. -/
def wbABC : Workbook := ⟨["A", "B", "C"]⟩

/-- Concrete workbook whose single sheet name carries markup characters. -/
def wbInj : Workbook := ⟨["<img>"]⟩

/-- Concrete always-succeeding sheet collaborator. -/
def sthTable : String → Except String String := fun _ => Except.ok "<table></table>"

/-- Concrete unused presentation collaborator. -/
def ppNone : Except String Presentation := Except.error "na"

/-- Concrete slide with an empty run list. -/
def slideEmpty : Slide := ⟨some []⟩

/-- Concrete one-slide presentation. -/
def presOne : Presentation := ⟨[slideEmpty]⟩

/-! Helper lemmas: substring search. -/

theorem matchAt_self_append (p t : List Char) : matchAt p (p ++ t) = true := by
  induction p with
  | nil => rfl
  | cons c cs ih => simp [matchAt, ih]

theorem hasSub_nil_pat (t : List Char) : hasSub [] t = true := by
  cases t <;> simp [hasSub, matchAt, List.isEmpty]

theorem hasSub_append_left (p l t : List Char) (h : hasSub p t = true) :
    hasSub p (l ++ t) = true := by
  induction l with
  | nil => simpa using h
  | cons c cs ih => simp [hasSub, ih]

theorem hasSub_self_append (p t : List Char) : hasSub p (p ++ t) = true := by
  cases p with
  | nil => exact hasSub_nil_pat _
  | cons c cs => simp [hasSub, matchAt, matchAt_self_append]

theorem hasSub_embed (p l t : List Char) : hasSub p (l ++ (p ++ t)) = true :=
  hasSub_append_left _ _ _ (hasSub_self_append p t)

/-! Helper lemmas: the escaper introduces no markup-active characters. -/

theorem mem_replaceChar {a c : Char} {r s : List Char}
    (h : a ∈ replaceChar c r s) : a ∈ r ∨ (a ∈ s ∧ a ≠ c) := by
  induction s with
  | nil => simp [replaceChar] at h
  | cons x xs ih =>
    simp only [replaceChar, List.mem_append] at h
    rcases h with h | h
    · by_cases hx : x = c
      · rw [if_pos hx] at h
        exact Or.inl h
      · rw [if_neg hx] at h
        simp only [List.mem_singleton] at h
        subst h
        exact Or.inr ⟨List.mem_cons_self _ _, hx⟩
    · rcases ih h with h' | ⟨h1, h2⟩
      · exact Or.inl h'
      · exact Or.inr ⟨List.mem_cons_of_mem _ h1, h2⟩

theorem escapeHtmlList_no_lt (s : List Char) : '<' ∉ escapeHtmlList s := by
  intro h
  unfold escapeHtmlList at h
  rcases mem_replaceChar h with h | ⟨h, -⟩
  · exact absurd h (by decide)
  rcases mem_replaceChar h with h | ⟨h, -⟩
  · exact absurd h (by decide)
  rcases mem_replaceChar h with h | ⟨h, -⟩
  · exact absurd h (by decide)
  rcases mem_replaceChar h with h | ⟨-, hne⟩
  · exact absurd h (by decide)
  · exact hne rfl

theorem escapeHtmlList_no_gt (s : List Char) : '>' ∉ escapeHtmlList s := by
  intro h
  unfold escapeHtmlList at h
  rcases mem_replaceChar h with h | ⟨h, -⟩
  · exact absurd h (by decide)
  rcases mem_replaceChar h with h | ⟨h, -⟩
  · exact absurd h (by decide)
  rcases mem_replaceChar h with h | ⟨-, hne⟩
  · exact absurd h (by decide)
  · exact hne rfl

theorem escapeHtml_no_angle {s : String} {c : Char} (h : c ∈ (escapeHtml s).data) :
    c ≠ '<' ∧ c ≠ '>' := by
  unfold escapeHtml at h
  by_cases hs : s = ""
  · rw [if_pos hs] at h
    simp at h
  · rw [if_neg hs] at h
    constructor
    · intro hc
      subst hc
      exact escapeHtmlList_no_lt s.data h
    · intro hc
      subst hc
      exact escapeHtmlList_no_gt s.data h

theorem count_lt_escapeHtml (s : String) : List.count '<' (escapeHtml s).data = 0 :=
  List.count_eq_zero.mpr (fun h => (escapeHtml_no_angle h).1 rfl)

theorem count_gt_escapeHtml (s : String) : List.count '>' (escapeHtml s).data = 0 :=
  List.count_eq_zero.mpr (fun h => (escapeHtml_no_angle h).2 rfl)

/-! Helper lemmas: decimal digits carry no markup-active characters. -/

theorem digitChar_ne_angle (m : Nat) :
    Nat.digitChar m ≠ '<' ∧ Nat.digitChar m ≠ '>' := by
  by_cases h : m < 16
  · interval_cases m <;> decide
  · have hstar : Nat.digitChar m = Char.ofNat 42 := by
      unfold Nat.digitChar
      iterate 16 rw [if_neg (by omega)]
    rw [hstar]
    decide

theorem toDigitsCore_ne_angle :
    ∀ (fuel n : Nat) (ds : List Char),
      (∀ c ∈ ds, c ≠ '<' ∧ c ≠ '>') →
      ∀ c ∈ Nat.toDigitsCore 10 fuel n ds, c ≠ '<' ∧ c ≠ '>' := by
  intro fuel
  induction fuel with
  | zero =>
    intro n ds hds c hc
    exact hds c hc
  | succ fuel ih =>
    intro n ds hds c hc
    unfold Nat.toDigitsCore at hc
    by_cases h0 : n / 10 = 0
    · rw [if_pos h0] at hc
      rcases List.mem_cons.mp hc with h | h
      · subst h
        exact digitChar_ne_angle _
      · exact hds c h
    · rw [if_neg h0] at hc
      refine ih (n / 10) (Nat.digitChar (n % 10) :: ds) ?_ c hc
      intro d hd
      rcases List.mem_cons.mp hd with h | h
      · subst h
        exact digitChar_ne_angle _
      · exact hds d h

theorem natRepr_ne_angle (n : Nat) :
    ∀ c ∈ (Nat.repr n).data, c ≠ '<' ∧ c ≠ '>' := by
  intro c hc
  exact toDigitsCore_ne_angle (n + 1) n [] (by simp) c hc

theorem count_lt_natRepr (n : Nat) : List.count '<' (Nat.repr n).data = 0 :=
  List.count_eq_zero.mpr (fun h => (natRepr_ne_angle n _ h).1 rfl)

theorem count_gt_natRepr (n : Nat) : List.count '>' (Nat.repr n).data = 0 :=
  List.count_eq_zero.mpr (fun h => (natRepr_ne_angle n _ h).2 rfl)

/-! Helper lemmas: per-worksheet progress values. -/

theorem sheetProgress_mono {n a b : Nat} (h : a ≤ b) :
    sheetProgress n a ≤ sheetProgress n b := by
  unfold sheetProgress jsRound
  have h1 : 2 * (a * 60) + n ≤ 2 * (b * 60) + n := by omega
  exact Nat.add_le_add_left (Nat.div_le_div_right h1) 20

theorem sheetProgress_lb (n i : Nat) : 20 ≤ sheetProgress n i :=
  Nat.le_add_right 20 _

theorem sheetProgress_ub {n i : Nat} (h : i < n) : sheetProgress n i ≤ 80 := by
  unfold sheetProgress jsRound
  have hpos : 0 < 2 * n := by omega
  have h61 : (2 * (i * 60) + n) / (2 * n) < 61 := by
    rw [Nat.div_lt_iff_lt_mul hpos]
    omega
  omega

/-- The per-worksheet progress values emitted for the first `k` of `n`
worksheets, in emission order. -/
def sheetBlock (n k : Nat) : List Nat :=
  (List.range' 0 k).map (fun j => sheetProgress n j)

theorem mem_sheetBlock {n k a : Nat} (h : a ∈ sheetBlock n k) :
    ∃ j, j < k ∧ a = sheetProgress n j := by
  simp only [sheetBlock, List.mem_map, List.mem_range'] at h
  obtain ⟨j, ⟨i, hi, hji⟩, hj⟩ := h
  exact ⟨j, by omega, hj.symm⟩

theorem sorted_sheetBlock_full {n k : Nat} (hk : k ≤ n) :
    List.Sorted (· ≤ ·) (([10, 20] ++ sheetBlock n k) ++ [100]) := by
  apply List.pairwise_append.mpr
  refine ⟨?_, List.pairwise_singleton _ _, ?_⟩
  · apply List.pairwise_append.mpr
    refine ⟨by decide, ?_, ?_⟩
    · unfold sheetBlock
      apply List.pairwise_map.mpr
      exact (List.pairwise_lt_range' 0 k).imp
        (fun hab => sheetProgress_mono (Nat.le_of_lt hab))
    · intro a ha b hb
      obtain ⟨j, -, hj⟩ := mem_sheetBlock hb
      have h20 := sheetProgress_lb n j
      have : a = 10 ∨ a = 20 := by simpa using ha
      omega
  · intro a ha b hb
    have hb100 : b = 100 := by simpa using hb
    rcases List.mem_append.mp ha with h | h
    · have : a = 10 ∨ a = 20 := by simpa using h
      omega
    · obtain ⟨j, hjk, hj⟩ := mem_sheetBlock h
      have := sheetProgress_ub (Nat.lt_of_lt_of_le hjk hk)
      omega

theorem sorted_sheetBlock_front {n k : Nat} (hk : k ≤ n) :
    List.Sorted (· ≤ ·) ([10, 20] ++ sheetBlock n k) :=
  (sorted_sheetBlock_full hk).sublist (List.sublist_append_left _ _)

/-! Helper lemmas: shape of the worksheet loop of parseXlsx. -/

theorem xlsxLoop_msgs (sth : String → Except String String) (n : Nat) :
    ∀ (names : List String) (i : Nat), ∃ k, k ≤ names.length ∧
      (xlsxLoop sth n i names).1 =
        (List.range' i k).map (fun j => Msg.progress (sheetProgress n j)) ∧
      ∀ body, (xlsxLoop sth n i names).2 = Except.ok body → k = names.length := by
  intro names
  induction names with
  | nil =>
    intro i
    exact ⟨0, Nat.le_refl 0, by simp [xlsxLoop], fun _ _ => rfl⟩
  | cons name rest ih =>
    intro i
    cases hcol : sth name with
    | error e =>
      refine ⟨1, by simp, ?_, ?_⟩
      · simp [xlsxLoop, hcol, List.range'_succ]
      · intro body hb
        simp [xlsxLoop, hcol] at hb
    | ok h =>
      obtain ⟨k, hk, h1, h2⟩ := ih (i + 1)
      refine ⟨k + 1, by simpa using hk, ?_, ?_⟩
      · simp only [xlsxLoop, hcol, List.range'_succ, List.map_cons]
        exact congrArg _ h1
      · intro body hb
        simp only [xlsxLoop, hcol] at hb
        cases hr : (xlsxLoop sth n (i + 1) rest).2 with
        | error e => rw [hr] at hb; simp [Except.map] at hb
        | ok b =>
          have := h2 b hr
          simp [this]

theorem xlsxLoop_no_terminal (sth : String → Except String String) (n : Nat) :
    ∀ (names : List String) (i : Nat) (m : Msg),
      m ∈ (xlsxLoop sth n i names).1 → isTerminal m = false := by
  intro names
  induction names with
  | nil =>
    intro i m hm
    simp [xlsxLoop] at hm
  | cons name rest ih =>
    intro i m hm
    cases hcol : sth name with
    | error e =>
      simp [xlsxLoop, hcol] at hm
      subst hm
      rfl
    | ok h =>
      simp only [xlsxLoop, hcol] at hm
      rcases List.mem_cons.mp hm with h1 | h1
      · subst h1
        rfl
      · exact ih (i + 1) m h1

/-! Helper lemmas: progress extraction and success detection. -/

theorem progressVals_append (a b : List Msg) :
    progressVals (a ++ b) = progressVals a ++ progressVals b :=
  List.filterMap_append _ _ _

theorem progressVals_progress_map (f : Nat → Nat) (l : List Nat) :
    progressVals (l.map (fun j => Msg.progress (f j))) = l.map f := by
  induction l with
  | nil => rfl
  | cons x xs ih =>
    simp only [List.map_cons, progressVals, List.filterMap_cons] at ih ⊢
    rw [ih]

theorem succeeded_append (a b : List Msg) :
    succeeded (a ++ b) = (succeeded a || succeeded b) :=
  List.any_append

theorem succeeded_progress_map (f : Nat → Nat) (l : List Nat) :
    succeeded (l.map (fun j => Msg.progress (f j))) = false := by
  induction l with
  | nil => rfl
  | cons x xs ih =>
    simp only [List.map_cons, succeeded, List.any_cons] at ih ⊢
    rw [ih]
    rfl

theorem progressVals_append_error (ms : List Msg) (w : String) :
    progressVals (ms ++ [Msg.error w]) = progressVals ms := by
  rw [progressVals_append]
  simp [progressVals]

theorem succeeded_append_error (ms : List Msg) (w : String) :
    succeeded (ms ++ [Msg.error w]) = succeeded ms := by
  rw [succeeded_append]
  simp [succeeded]

/-- Progress behavior of parseXlsx: values are emitted in non-decreasing
order, and the last value is 100 when the run posts a result. -/
theorem parseXlsxRun_progress (readWb : Except String Workbook)
    (sth : String → Except String String) :
    List.Sorted (· ≤ ·) (progressVals (parseXlsxRun readWb sth).msgs) ∧
    (succeeded (parseXlsxRun readWb sth).msgs = true →
      (progressVals (parseXlsxRun readWb sth).msgs).getLast? = some 100) := by
  unfold parseXlsxRun
  cases readWb with
  | error e =>
    constructor
    · simp [progressVals, List.filterMap_cons]
    · intro h
      simp [succeeded] at h
  | ok wb =>
    obtain ⟨k, hk, hmsgs, hok⟩ :=
      xlsxLoop_msgs sth wb.sheetNames.length wb.sheetNames 0
    cases hr : (xlsxLoop sth wb.sheetNames.length 0 wb.sheetNames).2 with
    | error e =>
      simp only [hr]
      constructor
      · rw [progressVals_append, hmsgs, progressVals_progress_map]
        exact sorted_sheetBlock_front hk
      · intro h
        rw [succeeded_append, hmsgs, succeeded_progress_map] at h
        simp [succeeded] at h
    | ok body =>
      simp only [hr]
      have hkn := hok body hr
      constructor
      · rw [progressVals_append, progressVals_append, hmsgs, progressVals_progress_map]
        have : progressVals [Msg.progress 100,
            Msg.result "xlsx-result" (xlsxHeader wb.sheetNames.length ++ body ++ "</div>")] =
            [100] := rfl
        rw [this]
        exact sorted_sheetBlock_full hk
      · intro h
        rw [progressVals_append, progressVals_append, hmsgs, progressVals_progress_map]
        have : progressVals [Msg.progress 100,
            Msg.result "xlsx-result" (xlsxHeader wb.sheetNames.length ++ body ++ "</div>")] =
            [100] := rfl
        rw [this]
        exact List.getLast?_concat _

/-- Progress behavior of parsePptx. -/
theorem parsePptxRun_progress (pp : Except String Presentation) :
    List.Sorted (· ≤ ·) (progressVals (parsePptxRun pp).msgs) ∧
    (succeeded (parsePptxRun pp).msgs = true →
      (progressVals (parsePptxRun pp).msgs).getLast? = some 100) := by
  unfold parsePptxRun
  cases pp with
  | error e =>
    constructor
    · simp only [progressVals, List.filterMap_cons]
      decide
    · intro h
      simp [succeeded] at h
  | ok p =>
    constructor
    · simp only [progressVals, List.filterMap_cons]
      decide
    · intro h
      rfl

theorem run_wrap_progress (r : RunOut)
    (hr : List.Sorted (· ≤ ·) (progressVals r.msgs) ∧
      (succeeded r.msgs = true → (progressVals r.msgs).getLast? = some 100)) :
    List.Sorted (· ≤ ·) (progressVals (match r.thrown with
      | none => r.msgs
      | some w => r.msgs ++ [Msg.error (errMsgOr w)])) ∧
    (succeeded (match r.thrown with
      | none => r.msgs
      | some w => r.msgs ++ [Msg.error (errMsgOr w)]) = true →
      (progressVals (match r.thrown with
      | none => r.msgs
      | some w => r.msgs ++ [Msg.error (errMsgOr w)])).getLast? = some 100) := by
  rcases r with ⟨ms, th⟩
  cases th with
  | none => exact hr
  | some w =>
    refine ⟨?_, ?_⟩
    · show List.Sorted (· ≤ ·) (progressVals (ms ++ [Msg.error (errMsgOr w)]))
      rw [progressVals_append_error]
      exact hr.1
    · show succeeded (ms ++ [Msg.error (errMsgOr w)]) = true →
        (progressVals (ms ++ [Msg.error (errMsgOr w)])).getLast? = some 100
      rw [progressVals_append_error, succeeded_append_error]
      exact hr.2

/-- C2: for every worker conversion request (spreadsheet or presentation,
any collaborator behavior), the progress percentages are emitted in
non-decreasing order, and whenever the request succeeds (a result message
is delivered) the last progress value emitted is exactly 100. -/
theorem c2_progress_monotone_and_final (readWb : Except String Workbook)
    (sth : String → Except String String) (pp : Except String Presentation)
    (req : String) :
    List.Sorted (· ≤ ·) (progressVals (workerHandle readWb sth pp req)) ∧
    (succeeded (workerHandle readWb sth pp req) = true →
      (progressVals (workerHandle readWb sth pp req)).getLast? = some 100) := by
  unfold workerHandle
  by_cases h1 : req = "parse-xlsx"
  · rw [if_pos h1]
    exact run_wrap_progress _ (parseXlsxRun_progress readWb sth)
  · rw [if_neg h1]
    by_cases h2 : req = "parse-pptx"
    · rw [if_pos h2]
      exact run_wrap_progress _ (parsePptxRun_progress pp)
    · rw [if_neg h2]
      exact run_wrap_progress ⟨[], some ("不支持的解析类型: " ++ req)⟩
        ⟨by simp [progressVals], fun h => by simp [succeeded] at h⟩

/-- A closed instance of C2: the spec scenario (three worksheets, all
converting) emits its progress values in non-decreasing order and ends at
exactly 100. -/
theorem c2_progress_monotone_and_final_witness :
    (progressVals (workerHandle (Except.ok wbABC) sthTable ppNone
      "parse-xlsx")).getLast? = some 100 :=
  (c2_progress_monotone_and_final (Except.ok wbABC) sthTable ppNone
    "parse-xlsx").2 (by decide)

/-! Helper lemmas: terminal-message counting. -/

theorem deliveries_length (ms : List Msg) :
    ((ms.map hostDeliver).flatten).length = ms.countP isTerminal := by
  induction ms with
  | nil => rfl
  | cons m rest ih =>
    cases m <;> simp [hostDeliver, isTerminal, List.countP_cons, ih]

theorem parseXlsxRun_terminals (readWb : Except String Workbook)
    (sth : String → Except String String) :
    (∀ w, (parseXlsxRun readWb sth).thrown = some w →
      (parseXlsxRun readWb sth).msgs.countP isTerminal = 0) ∧
    ((parseXlsxRun readWb sth).thrown = none →
      (parseXlsxRun readWb sth).msgs.countP isTerminal = 1) := by
  unfold parseXlsxRun
  cases readWb with
  | error e =>
    exact ⟨fun w hw => rfl, fun h => by simp at h⟩
  | ok wb =>
    have hloop : (xlsxLoop sth wb.sheetNames.length 0 wb.sheetNames).1.countP
        isTerminal = 0 :=
      List.countP_eq_zero.mpr (fun m hm => by
        rw [xlsxLoop_no_terminal sth wb.sheetNames.length wb.sheetNames 0 m hm]
        exact Bool.false_ne_true)
    cases hr : (xlsxLoop sth wb.sheetNames.length 0 wb.sheetNames).2 with
    | error e =>
      simp only [hr]
      refine ⟨fun w hw => ?_, fun h => by simp at h⟩
      rw [List.countP_append, hloop]
      rfl
    | ok body =>
      simp only [hr]
      refine ⟨fun w hw => by simp at hw, fun h => ?_⟩
      rw [List.countP_append, List.countP_append, hloop]
      rfl

theorem parsePptxRun_terminals (pp : Except String Presentation) :
    (∀ w, (parsePptxRun pp).thrown = some w →
      (parsePptxRun pp).msgs.countP isTerminal = 0) ∧
    ((parsePptxRun pp).thrown = none →
      (parsePptxRun pp).msgs.countP isTerminal = 1) := by
  unfold parsePptxRun
  cases pp with
  | error e => exact ⟨fun w hw => rfl, fun h => by simp at h⟩
  | ok p => exact ⟨fun w hw => by simp at hw, fun h => rfl⟩

theorem run_wrap_terminals (r : RunOut)
    (hr : (∀ w, r.thrown = some w → r.msgs.countP isTerminal = 0) ∧
      (r.thrown = none → r.msgs.countP isTerminal = 1)) :
    (match r.thrown with
      | none => r.msgs
      | some w => r.msgs ++ [Msg.error (errMsgOr w)]).countP isTerminal = 1 := by
  rcases r with ⟨ms, th⟩
  cases th with
  | none => exact hr.2 rfl
  | some w =>
    show (ms ++ [Msg.error (errMsgOr w)]).countP isTerminal = 1
    rw [List.countP_append, hr.1 w rfl]
    rfl

theorem workerHandle_one_terminal (readWb : Except String Workbook)
    (sth : String → Except String String) (pp : Except String Presentation)
    (req : String) :
    (workerHandle readWb sth pp req).countP isTerminal = 1 := by
  unfold workerHandle
  by_cases h1 : req = "parse-xlsx"
  · rw [if_pos h1]
    exact run_wrap_terminals _ (parseXlsxRun_terminals readWb sth)
  · rw [if_neg h1]
    by_cases h2 : req = "parse-pptx"
    · rw [if_pos h2]
      exact run_wrap_terminals _ (parsePptxRun_terminals pp)
    · rw [if_neg h2]
      exact run_wrap_terminals ⟨[], some ("不支持的解析类型: " ++ req)⟩
        ⟨fun w hw => rfl, fun h => by simp at h⟩

/-- C1: for every conversion request — spreadsheet or presentation, worker
or main-thread fallback, succeeding or failing — exactly one terminal
outcome is delivered on the main thread: one rendered-HTML delivery or one
error-panel delivery, never zero and never both. -/
theorem c1_exactly_one_terminal (readWb : Except String Workbook)
    (sth : String → Except String String) (pp : Except String Presentation)
    (req docType : String) :
    (workerDeliveries readWb sth pp req).length = 1 ∧
    ((parseLargeFileFallback docType readWb sth pp).2).length = 1 := by
  constructor
  · rw [workerDeliveries, deliveries_length]
    exact workerHandle_one_terminal readWb sth pp req
  · unfold parseLargeFileFallback
    by_cases h1 : docType = "xlsx"
    · rw [if_pos h1]
      cases hr : (parseXlsxInChunks readWb sth).2 <;> simp [hr]
    · rw [if_neg h1]
      by_cases h2 : docType = "pptx"
      · rw [if_pos h2]
        cases hr : (parsePptxInChunks pp).2 <;> simp [hr]
      · rw [if_neg h2]
        rfl

/-! Helper lemmas: which error messages each channel can carry. -/

theorem append_pref_ne_empty (s a : String) (hs : s.data ≠ []) : s ++ a ≠ "" := by
  intro h
  apply hs
  have hd : s.data ++ a.data = [] := by
    have := congrArg String.data h
    rwa [String.data_append] at this
  exact (List.append_eq_nil.mp hd).1

theorem append_head_ne {s t : String} {c d : Char} {l1 l2 : List Char}
    (hs : s.data = c :: l1) (ht : t.data = d :: l2) (hcd : c ≠ d) (a b : String) :
    s ++ a ≠ t ++ b := by
  intro h
  have hd := congrArg String.data h
  rw [String.data_append, String.data_append, hs, ht] at hd
  simp only [List.cons_append] at hd
  injection hd with h1 h2
  exact hcd h1

theorem run_wrap_error_mem (r : RunOut) (hterm : ∀ m, Msg.error m ∉ r.msgs) :
    ∀ msg, Msg.error msg ∈ (match r.thrown with
      | none => r.msgs
      | some w => r.msgs ++ [Msg.error (errMsgOr w)]) →
      ∃ w, r.thrown = some w ∧ msg = errMsgOr w := by
  rcases r with ⟨ms, th⟩
  cases th with
  | none =>
    intro msg hm
    exact absurd hm (hterm msg)
  | some w =>
    intro msg hm
    rcases List.mem_append.mp hm with h | h
    · exact absurd h (hterm msg)
    · refine ⟨w, rfl, ?_⟩
      simpa using h

theorem parseXlsxRun_no_error (readWb : Except String Workbook)
    (sth : String → Except String String) :
    ∀ m, Msg.error m ∉ (parseXlsxRun readWb sth).msgs := by
  unfold parseXlsxRun
  cases readWb with
  | error e =>
    intro m hm
    simp at hm
  | ok wb =>
    cases hr : (xlsxLoop sth wb.sheetNames.length 0 wb.sheetNames).2 with
    | error e =>
      simp only [hr]
      intro m hm
      simp only [List.mem_append] at hm
      rcases hm with h | h
      · simp at h
      · have := xlsxLoop_no_terminal sth wb.sheetNames.length wb.sheetNames 0 _ h
        simp [isTerminal] at this
    | ok body =>
      simp only [hr]
      intro m hm
      simp only [List.mem_append] at hm
      rcases hm with (h | h) | h
      · simp at h
      · have := xlsxLoop_no_terminal sth wb.sheetNames.length wb.sheetNames 0 _ h
        simp [isTerminal] at this
      · simp at h

theorem parsePptxRun_no_error (pp : Except String Presentation) :
    ∀ m, Msg.error m ∉ (parsePptxRun pp).msgs := by
  unfold parsePptxRun
  cases pp with
  | error e =>
    intro m hm
    simp at hm
  | ok p =>
    intro m hm
    simp at hm

theorem parseXlsxRun_thrown (readWb : Except String Workbook)
    (sth : String → Except String String) :
    ∀ w, (parseXlsxRun readWb sth).thrown = some w →
      ∃ e, w = "Excel解析失败: " ++ e := by
  unfold parseXlsxRun
  cases readWb with
  | error e =>
    intro w hw
    exact ⟨e, by simpa using hw.symm⟩
  | ok wb =>
    cases hr : (xlsxLoop sth wb.sheetNames.length 0 wb.sheetNames).2 with
    | error e =>
      simp only [hr]
      intro w hw
      exact ⟨e, by simpa using hw.symm⟩
    | ok body =>
      simp only [hr]
      intro w hw
      simp at hw

theorem parsePptxRun_thrown (pp : Except String Presentation) :
    ∀ w, (parsePptxRun pp).thrown = some w →
      ∃ e, w = "PowerPoint解析失败: " ++ e := by
  unfold parsePptxRun
  cases pp with
  | error e =>
    intro w hw
    exact ⟨e, by simpa using hw.symm⟩
  | ok p =>
    intro w hw
    simp at hw

/-- Every error message the worker posts through its message channel starts
with one of the three parse-failure prefixes. -/
theorem workerHandle_error_shape (readWb : Except String Workbook)
    (sth : String → Except String String) (pp : Except String Presentation)
    (req : String) :
    ∀ msg, Msg.error msg ∈ workerHandle readWb sth pp req →
      (∃ e, msg = "Excel解析失败: " ++ e) ∨
      (∃ e, msg = "PowerPoint解析失败: " ++ e) ∨
      (∃ t, msg = "不支持的解析类型: " ++ t) := by
  unfold workerHandle
  by_cases h1 : req = "parse-xlsx"
  · rw [if_pos h1]
    intro msg hm
    obtain ⟨w, hw, hmsg⟩ :=
      run_wrap_error_mem _ (parseXlsxRun_no_error readWb sth) msg hm
    obtain ⟨e, he⟩ := parseXlsxRun_thrown readWb sth w hw
    subst he
    left
    refine ⟨e, ?_⟩
    rw [hmsg, errMsgOr, if_neg (append_pref_ne_empty _ _ (by decide))]
  · rw [if_neg h1]
    by_cases h2 : req = "parse-pptx"
    · rw [if_pos h2]
      intro msg hm
      obtain ⟨w, hw, hmsg⟩ :=
        run_wrap_error_mem _ (parsePptxRun_no_error pp) msg hm
      obtain ⟨e, he⟩ := parsePptxRun_thrown pp w hw
      subst he
      right; left
      refine ⟨e, ?_⟩
      rw [hmsg, errMsgOr, if_neg (append_pref_ne_empty _ _ (by decide))]
    · rw [if_neg h2]
      intro msg hm
      obtain ⟨w, hw, hmsg⟩ :=
        run_wrap_error_mem ⟨[], some ("不支持的解析类型: " ++ req)⟩
          (fun m hm' => by simp at hm') msg hm
      right; right
      refine ⟨req, ?_⟩
      have hw' : w = "不支持的解析类型: " ++ req := by simpa using hw.symm
      subst hw'
      rw [hmsg, errMsgOr, if_neg (append_pref_ne_empty _ _ (by decide))]

/-- C5: when the isolated execution context crashes, worker.onerror shows a
distinct executor-crash message and terminates the worker instead of
waiting; the crash message differs from every error message the worker can
deliver through its ordinary message channel, so the two failure kinds are
distinguishable. -/
theorem c5_crash_error_distinct (readWb : Except String Workbook)
    (sth : String → Except String String) (pp : Except String Presentation)
    (req m msg : String)
    (h : Msg.error msg ∈ workerHandle readWb sth pp req) :
    msg ≠ workerCrashMessage m ∧
    (workerOnError m).1 = HostOutcome.errorShown (workerCrashMessage m) ∧
    (workerOnError m).2 = true := by
  refine ⟨?_, rfl, rfl⟩
  have hh : ("解析失败: ").data = '解' :: ("析失败: ").data := by decide
  have hE : ("Excel解析失败: ").data = 'E' :: ("xcel解析失败: ").data := by decide
  have hP : ("PowerPoint解析失败: ").data = 'P' :: ("owerPoint解析失败: ").data := by decide
  have hU : ("不支持的解析类型: ").data = '不' :: ("支持的解析类型: ").data := by decide
  rcases workerHandle_error_shape readWb sth pp req msg h with
    ⟨e, he⟩ | ⟨e, he⟩ | ⟨t, ht⟩
  · rw [he]
    exact append_head_ne hE hh (by decide) e m
  · rw [he]
    exact append_head_ne hP hh (by decide) e m
  · rw [ht]
    exact append_head_ne hU hh (by decide) t m

/-- A closed instance of C5: a concrete worker parse error, its message, and
the distinctness from a concrete crash message. -/
theorem c5_crash_error_distinct_witness :
    "Excel解析失败: bad zip" ≠ workerCrashMessage "script failed" :=
  (c5_crash_error_distinct (Except.error "bad zip") sthTable ppNone
    "parse-xlsx" "script failed" "Excel解析失败: bad zip" (by decide)).1

/-! Helper lemmas: the loops under an always-succeeding collaborator. -/

theorem xlsxLoop_ok (f : String → String) (n : Nat) :
    ∀ (names : List String) (i : Nat), ∃ body,
      (xlsxLoop (fun nm => Except.ok (f nm)) n i names).2 = Except.ok body := by
  intro names
  induction names with
  | nil =>
    intro i
    exact ⟨"", rfl⟩
  | cons name rest ih =>
    intro i
    obtain ⟨b, hb⟩ := ih (i + 1)
    exact ⟨sheetPiece i name (f name) ++ b, by simp [xlsxLoop, hb, Except.map]⟩

set_option maxRecDepth 100000 in
/-- C6: for every spreadsheet, the worker emits progress 10 and 20, then one
linearly apportioned value per worksheet, then 100; every per-worksheet
value lies in [20, 80]; and on the concrete three-worksheet scenario the
emitted sequence is 10, 20, 20, 40, 60, 100 and the output HTML contains
exactly three worksheet-container blocks holding the names A, B, C in
source order. -/
theorem c6_progress_apportion :
    (∀ (names : List String) (f : String → String),
      progressVals (parseXlsxRun (Except.ok ⟨names⟩)
          (fun nm => Except.ok (f nm))).msgs =
        ([10, 20] ++ sheetBlock names.length names.length) ++ [100]) ∧
    (∀ n i : Nat, i < n → 20 ≤ sheetProgress n i ∧ sheetProgress n i ≤ 80) ∧
    progressVals (workerHandle (Except.ok wbABC) sthTable ppNone "parse-xlsx") =
      [10, 20, 20, 40, 60, 100] ∧
    (resultHtml? (workerHandle (Except.ok wbABC) sthTable ppNone
        "parse-xlsx")).map
      (fun h => countSub ("worksheet-container").data h.data) = some 3 ∧
    (resultHtml? (workerHandle (Except.ok wbABC) sthTable ppNone
        "parse-xlsx")).map
      (fun h => inOrder [("工作表 1: A").data, ("工作表 2: B").data,
        ("工作表 3: C").data] h.data) = some true := by
  refine ⟨?_, ?_, by decide, by decide, by decide⟩
  · intro names f
    obtain ⟨k, hk, hmsgs, hok⟩ :=
      xlsxLoop_msgs (fun nm => Except.ok (f nm)) names.length names 0
    obtain ⟨body, hbody⟩ := xlsxLoop_ok f names.length names 0
    have hkn : k = names.length := hok body hbody
    unfold parseXlsxRun
    simp only [hbody]
    rw [progressVals_append, progressVals_append, hmsgs,
      progressVals_progress_map]
    subst hkn
    rfl
  · intro n i hi
    exact ⟨sheetProgress_lb n i, sheetProgress_ub hi⟩

/-- A closed instance of C6: for the three-worksheet workbook the middle
worksheet progress value is within [20, 80]. -/
theorem c6_progress_apportion_witness :
    20 ≤ sheetProgress 3 1 ∧ sheetProgress 3 1 ≤ 80 :=
  c6_progress_apportion.2.1 3 1 (by decide)

/-! Helper lemmas: yield counting in the cooperative fallback. -/

theorem countYields_append (a b : List FbEvent) :
    countYields (a ++ b) = countYields a + countYields b :=
  List.countP_append _ _ _

theorem countYields_yield_map (l : List Slide) :
    countYields (l.map (fun _ => FbEvent.yieldEv)) = l.length := by
  induction l with
  | nil => rfl
  | cons s rest ih =>
    simp only [List.map_cons, countYields, List.countP_cons] at ih ⊢
    rw [ih]
    simp

theorem xlsxChunksLoop_ok (f : String → String) (n : Nat) :
    ∀ (names : List String) (i : Nat), ∃ body,
      (xlsxChunksLoop (fun nm => Except.ok (f nm)) n i names).2 = Except.ok body ∧
      countYields (xlsxChunksLoop (fun nm => Except.ok (f nm)) n i names).1 =
        names.length := by
  intro names
  induction names with
  | nil =>
    intro i
    exact ⟨"", rfl, rfl⟩
  | cons name rest ih =>
    intro i
    obtain ⟨b, hb, hc⟩ := ih (i + 1)
    refine ⟨sheetPiece i name (f name) ++ b, ?_, ?_⟩
    · simp [xlsxChunksLoop, hb, Except.map]
    · show countYields ([FbEvent.progressEv (sheetProgress n i), FbEvent.yieldEv] ++
        (xlsxChunksLoop (fun nm => Except.ok (f nm)) n (i + 1) rest).1) = rest.length + 1
      rw [countYields_append, hc]
      have h1 : countYields [FbEvent.progressEv (sheetProgress n i),
        FbEvent.yieldEv] = 1 := rfl
      omega

/-- C4: with no worker available, the cooperative fallback converts both
document kinds; the presentation path yields control once per slide and
then delivers the converted presentation HTML as its single rendered
outcome, just as the spreadsheet path yields once per worksheet before
delivering its rendered outcome. -/
theorem c4_fallback_yields :
    (∀ (p : Presentation) (readWb : Except String Workbook)
        (sth : String → Except String String),
      (parseLargeFileFallback "pptx" readWb sth (Except.ok p)).2 =
        [HostOutcome.rendered (pptxHtml p)] ∧
      countYields (parseLargeFileFallback "pptx" readWb sth (Except.ok p)).1 =
        p.slides.length) ∧
    (∀ (names : List String) (f : String → String)
        (pp : Except String Presentation),
      (∃ html, (parseLargeFileFallback "xlsx" (Except.ok ⟨names⟩)
          (fun nm => Except.ok (f nm)) pp).2 = [HostOutcome.rendered html]) ∧
      countYields (parseLargeFileFallback "xlsx" (Except.ok ⟨names⟩)
          (fun nm => Except.ok (f nm)) pp).1 = names.length) := by
  constructor
  · intro p readWb sth
    unfold parseLargeFileFallback
    rw [if_neg (by decide), if_pos rfl]
    constructor
    · rfl
    · show countYields (([FbEvent.progressEv 10, FbEvent.progressEv 30,
          FbEvent.progressEv 60] ++ p.slides.map (fun _ => FbEvent.yieldEv)) ++
          [FbEvent.progressEv 100]) = p.slides.length
      rw [countYields_append, countYields_append, countYields_yield_map]
      have h1 : countYields [FbEvent.progressEv 10, FbEvent.progressEv 30,
        FbEvent.progressEv 60] = 0 := rfl
      have h2 : countYields [FbEvent.progressEv 100] = 0 := rfl
      omega
  · intro names f pp
    obtain ⟨body, hb, hc⟩ := xlsxChunksLoop_ok f names.length names 0
    unfold parseLargeFileFallback parseXlsxInChunks
    rw [if_pos rfl]
    simp only [hb]
    constructor
    · exact ⟨xlsxHeader names.length ++ body ++ "</div>", rfl⟩
    · show countYields (([FbEvent.progressEv 10, FbEvent.progressEv 20] ++
          (xlsxChunksLoop (fun nm => Except.ok (f nm)) names.length 0 names).1) ++
          [FbEvent.progressEv 100]) = names.length
      rw [countYields_append, countYields_append, hc]
      have h1 : countYields [FbEvent.progressEv 10, FbEvent.progressEv 20] = 0 := rfl
      have h2 : countYields [FbEvent.progressEv 100] = 0 := rfl
      omega

/-! C3: the escaper, what it is and is not applied to. -/

set_option maxRecDepth 100000 in
/-- C3 counterexample: in the concrete workbook whose only sheet is named
with markup, the delivered HTML contains the raw sheet name with its angle
brackets and does not contain its escaped form — worksheet names are not
escaped, contradicting the claim for worksheet names. -/
theorem c3_counterexample_sheetname_unescaped :
    (resultHtml? (workerHandle (Except.ok wbInj) sthTable ppNone
        "parse-xlsx")).map
      (fun h => (hasSub ("<img>").data h.data,
        hasSub (escapeHtml "<img>").data h.data)) = some (true, false) := by
  decide

theorem slideTag_counts (t : TextRun) :
    List.count '<' (slideTag t).data = 0 ∧ List.count '>' (slideTag t).data = 0 := by
  unfold slideTag
  split_ifs <;> exact ⟨rfl, rfl⟩

/-- C3 amended: escaped text never contains angle brackets; consequently a
rendered slide text run carries exactly the two structural opening brackets
and two structural closing brackets regardless of its content; worksheet
names however are interpolated verbatim (unescaped) into the worksheet
heading. -/
theorem c3_escaping_amended :
    (∀ (s : String) (c : Char), c ∈ (escapeHtml s).data → c ≠ '<' ∧ c ≠ '>') ∧
    (∀ t : TextRun, List.count '<' (slideRunHtml t).data = 2 ∧
      List.count '>' (slideRunHtml t).data = 2) ∧
    (∀ (i : Nat) (nm tbl : String),
      hasSub nm.data (sheetPiece i nm tbl).data = true) := by
  refine ⟨fun s c h => escapeHtml_no_angle h, ?_, ?_⟩
  · intro t
    constructor
    · unfold slideRunHtml
      simp only [String.data_append, List.count_append, count_lt_natRepr,
        count_lt_escapeHtml, (slideTag_counts t).1]
      decide
    · unfold slideRunHtml
      simp only [String.data_append, List.count_append, count_gt_natRepr,
        count_gt_escapeHtml, (slideTag_counts t).2]
      decide
  · intro i nm tbl
    unfold sheetPiece
    simp only [String.data_append, List.append_assoc]
    apply hasSub_append_left
    apply hasSub_append_left
    apply hasSub_append_left
    exact hasSub_self_append _ _

/-- A closed instance of C3 amended: a benign character of escaped output is
not an angle bracket. -/
theorem c3_escaping_amended_witness : ('a' ≠ '<' ∧ 'a' ≠ '>') :=
  c3_escaping_amended.1 "a" 'a' (by decide)

/-- C9: a slide whose text run list is absent or empty renders the explicit
no-content placeholder as its body — the placeholder appears in the emitted
slide HTML, and the placeholder is not the slide-content container. -/
theorem c9_empty_slide_placeholder (idx : Nat) (s : Slide)
    (h : s.text = none ∨ s.text = some []) :
    slideBody s = noContentHtml ∧
    hasSub noContentHtml.data (slideHtml idx s).data = true ∧
    hasSub ("<div class=\"slide-content\">").data noContentHtml.data = false := by
  have hb : slideBody s = noContentHtml := by
    rcases h with h | h <;> simp [slideBody, h]
  refine ⟨hb, ?_, by decide⟩
  unfold slideHtml
  rw [hb]
  simp only [String.data_append, List.append_assoc]
  apply hasSub_append_left
  apply hasSub_append_left
  apply hasSub_append_left
  apply hasSub_append_left
  apply hasSub_append_left
  apply hasSub_append_left
  exact hasSub_self_append _ _

/-- A closed instance of C9: the concrete empty-text slide gets the
placeholder body. -/
theorem c9_empty_slide_placeholder_witness :
    slideBody slideEmpty = noContentHtml :=
  (c9_empty_slide_placeholder 0 slideEmpty (Or.inr rfl)).1

/-- C7 counterexample: at input 150 the indicator output differs from the
clamped output the claim describes — the width is written as 150 percent,
not clamped into [0,100]. -/
theorem c7_counterexample_no_clamp :
    updateProgressIndicator 150 ≠ updateProgressIndicatorSpec 150 ∧
    (updateProgressIndicator 150).width = "150%" := by
  constructor
  · decide
  · decide

/-- C7 amended: the indicator formats the given percentage directly into
the width and status text with no clamping; it agrees with the clamping
behavior the spec describes exactly on inputs already inside [0, 100]. -/
theorem c7_passthrough_amended :
    (∀ p : Int, 0 ≤ p → p ≤ 100 →
      updateProgressIndicator p = updateProgressIndicatorSpec p) ∧
    (∀ p : Int, (updateProgressIndicator p).width = p.repr ++ "%" ∧
      (updateProgressIndicator p).text = "正在解析: " ++ p.repr ++ "%") := by
  constructor
  · intro p h0 h100
    unfold updateProgressIndicator updateProgressIndicatorSpec
    have h1 : min p 100 = p := min_eq_left h100
    have h2 : max 0 p = p := max_eq_right h0
    rw [h1, h2]
  · intro p
    exact ⟨rfl, rfl⟩

/-- A closed instance of C7 amended: inside the range the indicator and the
clamping spec agree. -/
theorem c7_passthrough_amended_witness :
    updateProgressIndicator 50 = updateProgressIndicatorSpec 50 :=
  c7_passthrough_amended.1 50 (by decide) (by decide)

/-- C10: the windowed renderer re-renders only when the computed start index
differs from the stored one, which starts at 0 — so any scroll offset whose
start index computes to 0 (including offset 0 itself) leaves the rendered
slice empty, and a change of the end index alone never re-renders. -/
theorem c10_initial_start_guard :
    (∀ viewportHeight len scrollTop : Nat, visStart scrollTop = 0 →
      renderVisibleContent viewportHeight len scrollTop initialVState =
        initialVState ∧
      (renderVisibleContent viewportHeight len scrollTop
        initialVState).renderedIdx = []) ∧
    (∀ (viewportHeight len scrollTop : Nat) (st : VScrollState),
      visStart scrollTop = st.currentStart →
      renderVisibleContent viewportHeight len scrollTop st = st) := by
  have key : ∀ (vh len sT : Nat) (st : VScrollState),
      visStart sT = st.currentStart → renderVisibleContent vh len sT st = st := by
    intro vh len sT st h
    simp only [renderVisibleContent]
    rw [if_pos h]
  constructor
  · intro vh len sT h
    have hfix := key vh len sT initialVState h
    exact ⟨hfix, by rw [hfix]; rfl⟩
  · exact key

/-- A closed instance of C10: at the initial scroll offset nothing is
rendered. -/
theorem c10_initial_start_guard_witness :
    (renderVisibleContent 500 3 0 initialVState).renderedIdx = [] :=
  (c10_initial_start_guard.1 500 3 0 (by decide)).2

set_option maxRecDepth 100000 in
/-- C8 counterexample: with viewport height 500, a 92-child reference tree
and scroll offset 219, one render tick attaches 91 nodes, exceeding the
claimed bound (500 + 2 times 200) divided by 10 = 90. -/
theorem c8_counterexample_bound_exceeded :
    ((renderVisibleContent 500 92 219 initialVState).renderedIdx).length = 91 ∧
    91 > (500 + 2 * vBuffer) / 10 := by
  constructor
  · decide
  · decide

/-- C8 amended: over any scroll history, the number of nodes attached to the
rendered slice never exceeds (viewport height + 2 times buffer) / 10 plus a
rounding slack of 2; and for any reference tree with at least two top-level
children some scroll offset renders the final child. -/
theorem c8_windowing_amended :
    (∀ (viewportHeight len : Nat) (scrolls : List Nat),
      ((runScroll viewportHeight len scrolls).renderedIdx).length ≤
        (viewportHeight + 2 * vBuffer) / 10 + 2) ∧
    (∀ viewportHeight len : Nat, 2 ≤ len →
      ∃ scrollTop, (len - 1) ∈
        (renderVisibleContent viewportHeight len scrollTop
          initialVState).renderedIdx) := by
  have step : ∀ (vh len sT : Nat) (st : VScrollState),
      st.renderedIdx.length ≤ (vh + 2 * vBuffer) / 10 + 2 →
      ((renderVisibleContent vh len sT st).renderedIdx).length ≤
        (vh + 2 * vBuffer) / 10 + 2 := by
    intro vh len sT st hst
    simp only [renderVisibleContent]
    by_cases h : visStart sT = st.currentStart
    · rw [if_pos h]
      exact hst
    · rw [if_neg h]
      simp only [List.length_range']
      unfold visStart visEnd vBuffer
      omega
  constructor
  · intro vh len scrolls
    unfold runScroll
    have inv : ∀ (l : List Nat) (st : VScrollState),
        st.renderedIdx.length ≤ (vh + 2 * vBuffer) / 10 + 2 →
        ((l.foldl (fun st s => renderVisibleContent vh len s st)
          st).renderedIdx).length ≤ (vh + 2 * vBuffer) / 10 + 2 := by
      intro l
      induction l with
      | nil => intro st h; exact h
      | cons x xs ih =>
        intro st h
        exact ih _ (step vh len x st h)
    exact inv scrolls initialVState (by simp [initialVState])
  · intro vh len hlen
    refine ⟨10 * (len - 1) + vBuffer, ?_⟩
    have hstart : visStart (10 * (len - 1) + vBuffer) = len - 1 := by
      unfold visStart vBuffer
      omega
    have hne : ¬ visStart (10 * (len - 1) + vBuffer) =
        initialVState.currentStart := by
      rw [hstart]
      show ¬ len - 1 = 0
      omega
    have hend : len ≤ visEnd vh (10 * (len - 1) + vBuffer) := by
      unfold visEnd vBuffer
      omega
    simp only [renderVisibleContent]
    rw [if_neg hne, hstart]
    simp only [List.mem_range']
    refine ⟨0, ?_, ?_⟩ <;> omega

/-- A closed instance of C8 amended: scrolling far enough on a two-child
tree renders the final child. -/
theorem c8_windowing_amended_witness :
    ∃ scrollTop, (1 : Nat) ∈
      (renderVisibleContent 500 2 scrollTop initialVState).renderedIdx :=
  c8_windowing_amended.2 500 2 (by decide)

end OfficePreview
